import Mathlib

/-
Verification of the daily-usage-tracker server plugin.

The repository contains three near-duplicate implementations of the same
plugin:
  * `src/server.mjs`                    (referred to below as "server")
  * `src/unnamed/part_000`              ("p000")
  * `src/unnamed/part_001`              ("p001")

The definitions below are a shallow embedding of the three variants.
JavaScript numbers are modelled as integers (no claim in scope depends on
fractional values or floating-point behaviour).  Request-body fields can be
numbers, booleans, null or undefined; strings are not part of the modelled
value space for increment fields.  The asynchronous file system is modelled
by an explicit `Disk` function together with a `writeOk` oracle describing
which writes succeed, and `dayjs` day comparison is modelled by comparing
the parsed `YYYY-MM-DD` triples (all variants compare at day granularity
under the fixed Asia/Shanghai timezone).

part_001 extends only the utc and timezone dayjs plugins.  Its
`isSameOrBefore` call therefore throws a TypeError at run time, and its
"strict" `dayjs(s, 'YYYY-MM-DD', true)` parses run dayjs's lenient default
parser; the embedding models both facts (see `p001Flush` and
`dayjsParse`).
-/

/-- A JavaScript primitive value appearing in a request body field
    (numbers, booleans, `null`, `undefined`). -/
inductive JSVal where
  | num (n : Int)
  | jsbool (b : Bool)
  | jsnull
  | undef
deriving DecidableEq, Repr

/-- JavaScript truthiness on the modelled value space. -/
def JSVal.truthy : JSVal → Bool
  | .num n => n != 0
  | .jsbool b => b
  | .jsnull => false
  | .undef => false

/-- JavaScript loose equality with `null` (`x == null`), used by p001's
    validation: true exactly for `null` and `undefined`. -/
def JSVal.isNullish : JSVal → Bool
  | .jsnull => true
  | .undef => true
  | _ => false

/-- JavaScript `typeof x === 'boolean'`. -/
def JSVal.isBoolVal : JSVal → Bool
  | .jsbool _ => true
  | _ => false

/-- JavaScript numeric coercion (`ToNumber`) on the modelled value space.
    `undefined` coerces to NaN in JavaScript, but every use below is guarded
    by a truthiness test which `undefined` fails, so the value chosen here is
    never added to a counter. -/
def JSVal.toNum : JSVal → Int
  | .num n => n
  | .jsbool b => if b then 1 else 0
  | .jsnull => 0
  | .undef => 0

/-- JavaScript comparison `v > 0` on the modelled value space
    (NaN comparisons are false, booleans coerce to 0/1). -/
def JSVal.gtZero : JSVal → Bool
  | .num n => decide (0 < n)
  | .jsbool b => b
  | .jsnull => false
  | .undef => false

/-- `typeof v === 'number' && v > 0`, the gate used by server and p001. -/
def JSVal.isPosNum : JSVal → Bool
  | .num n => decide (0 < n)
  | _ => false

/-- A /track request body. -/
structure TrackReq where
  entityId : String
  timeIncrementMs : JSVal
  messageIncrement : JSVal
  wordIncrement : JSVal
  isUser : JSVal
deriving DecidableEq, Repr

/-- The per-entity counter record kept for each entity within one day. -/
structure EntityCounters where
  totalTimeMs : Int
  userMsgCount : Int
  aiMsgCount : Int
  userWordCount : Int
  aiWordCount : Int
deriving DecidableEq, Repr

/-- The zero-initialized record created when an entity is first seen. -/
def zeroCounters : EntityCounters := ⟨0, 0, 0, 0, 0⟩

/-- Fieldwise sum of two counter records. -/
def addCounters (a b : EntityCounters) : EntityCounters :=
  ⟨a.totalTimeMs + b.totalTimeMs, a.userMsgCount + b.userMsgCount,
   a.aiMsgCount + b.aiMsgCount, a.userWordCount + b.userWordCount,
   a.aiWordCount + b.aiWordCount⟩

/-- Fieldwise order on counter records. -/
def countersLe (a b : EntityCounters) : Prop :=
  a.totalTimeMs ≤ b.totalTimeMs ∧ a.userMsgCount ≤ b.userMsgCount ∧
  a.aiMsgCount ≤ b.aiMsgCount ∧ a.userWordCount ≤ b.userWordCount ∧
  a.aiWordCount ≤ b.aiWordCount

instance (a b : EntityCounters) : Decidable (countersLe a b) := by
  unfold countersLe; infer_instance

/-- Association-list lookup, modelling JavaScript object property read. -/
def alistGet {α : Type} : List (String × α) → String → Option α
  | [], _ => none
  | (k', v) :: t, k => if k' = k then some v else alistGet t k

/-- Association-list update, modelling JavaScript object property write
    (existing key updated in place, new key appended in insertion order). -/
def alistSet {α : Type} : List (String × α) → String → α → List (String × α)
  | [], k, v => [(k, v)]
  | (k', v') :: t, k, v =>
      if k' = k then (k, v) :: t else (k', v') :: alistSet t k v

/-- One day's entity → counters table (a JavaScript object). -/
abbrev DayBucket := List (String × EntityCounters)

/-- The in-memory cache mapping day keys to day buckets. -/
abbrev Cache := List (String × DayBucket)

theorem alistGet_set_self {α : Type} (l : List (String × α)) (k : String) (v : α) :
    alistGet (alistSet l k v) k = some v := by
  induction l with
  | nil => simp [alistGet, alistSet]
  | cons h t ih =>
      obtain ⟨k', v'⟩ := h
      by_cases hk : k' = k <;> simp [alistGet, alistSet, hk, ih]

theorem alistGet_set_ne {α : Type} (l : List (String × α)) (k k' : String) (v : α)
    (h : k ≠ k') : alistGet (alistSet l k v) k' = alistGet l k' := by
  induction l with
  | nil => simp [alistGet, alistSet, h]
  | cons hd t ih =>
      obtain ⟨k0, v0⟩ := hd
      by_cases hk : k0 = k
      · subst hk; simp [alistGet, alistSet, h]
      · simp [alistGet, alistSet, hk, ih]

/- ----------------------------------------------------------------------
   Per-entity increment accumulation (the body of each /track handler).
   ---------------------------------------------------------------------- -/

/-- server.mjs `/track` lines 181-196: counter accumulation for one request
    applied to one entity's record.  Time and message increments require
    `typeof x === 'number' && x > 0`; the word increment is only consulted
    inside the positive-message branch and requires
    `typeof w === 'number' && w >= 0`; attribution follows the truthiness
    of `isUser`. -/
def applyIncServer (r : TrackReq) (e : EntityCounters) : EntityCounters :=
  let e1 :=
    match r.timeIncrementMs with
    | .num n => if 0 < n then { e with totalTimeMs := e.totalTimeMs + n } else e
    | _ => e
  match r.messageIncrement with
  | .num m =>
      if 0 < m then
        if r.isUser.truthy then
          let e2 := { e1 with userMsgCount := e1.userMsgCount + m }
          match r.wordIncrement with
          | .num w => if 0 ≤ w then { e2 with userWordCount := e2.userWordCount + w } else e2
          | _ => e2
        else
          let e2 := { e1 with aiMsgCount := e1.aiMsgCount + m }
          match r.wordIncrement with
          | .num w => if 0 ≤ w then { e2 with aiWordCount := e2.aiWordCount + w } else e2
          | _ => e2
      else e1
  | _ => e1

/-- part_001 `/track` lines 183-197: same gates as server.mjs, but the word
    contribution is computed up front (`words`) and always added together
    with the message count. -/
def applyIncP001 (r : TrackReq) (e : EntityCounters) : EntityCounters :=
  let e1 :=
    match r.timeIncrementMs with
    | .num n => if 0 < n then { e with totalTimeMs := e.totalTimeMs + n } else e
    | _ => e
  match r.messageIncrement with
  | .num m =>
      if 0 < m then
        let words : Int :=
          match r.wordIncrement with
          | .num w => if 0 ≤ w then w else 0
          | _ => 0
        if r.isUser.truthy then
          { e1 with userMsgCount := e1.userMsgCount + m,
                    userWordCount := e1.userWordCount + words }
        else
          { e1 with aiMsgCount := e1.aiMsgCount + m,
                    aiWordCount := e1.aiWordCount + words }
      else e1
  | _ => e1

/-- part_000 `/track` lines 138-159: gates use JavaScript truthiness and
    coercing comparison (`v && v > 0`), additions coerce the value with
    `ToNumber`; the word increment is accumulated independently of the
    message increment. -/
def applyIncP000 (r : TrackReq) (e : EntityCounters) : EntityCounters :=
  let e1 :=
    if r.timeIncrementMs.truthy && r.timeIncrementMs.gtZero then
      { e with totalTimeMs := e.totalTimeMs + r.timeIncrementMs.toNum }
    else e
  let e2 :=
    if r.messageIncrement.truthy && r.messageIncrement.gtZero then
      if r.isUser.truthy then
        { e1 with userMsgCount := e1.userMsgCount + r.messageIncrement.toNum }
      else
        { e1 with aiMsgCount := e1.aiMsgCount + r.messageIncrement.toNum }
    else e1
  if r.wordIncrement.truthy && r.wordIncrement.gtZero then
    if r.isUser.truthy then
      { e2 with userWordCount := e2.userWordCount + r.wordIncrement.toNum }
    else
      { e2 with aiWordCount := e2.aiWordCount + r.wordIncrement.toNum }
  else e2

/-- server.mjs `/track` lines 169-196 at the bucket level: the entity's
    record is created zero-initialized on first sight, then the increments
    are accumulated into it. -/
def applyTrackServer (r : TrackReq) (b : DayBucket) : DayBucket :=
  alistSet b r.entityId (applyIncServer r ((alistGet b r.entityId).getD zeroCounters))

/-- A whole sequence of /track accumulations (server.mjs) folded over a
    bucket. -/
def trackFoldServer (reqs : List TrackReq) (b : DayBucket) : DayBucket :=
  reqs.foldl (fun acc r => applyTrackServer r acc) b

/- ----------------------------------------------------------------------
   Day keys.
   ---------------------------------------------------------------------- -/

/-- Numeric value of a decimal digit character. -/
def digitVal (c : Char) : Nat := c.toNat - '0'.toNat

/-- Parse a strict `YYYY-MM-DD` string into its (year, month, day) numbers.
    Succeeds exactly when the string matches the regular expression
    `^\d{4}-\d{2}-\d{2}$` used by server.mjs line 218 and part_000
    line 178. -/
def dateTriple (s : String) : Option (Nat × Nat × Nat) :=
  match s.toList with
  | [y1, y2, y3, y4, s1, m1, m2, s2, d1, d2] =>
      if y1.isDigit && y2.isDigit && y3.isDigit && y4.isDigit && s1 == '-' &&
         m1.isDigit && m2.isDigit && s2 == '-' && d1.isDigit && d2.isDigit then
        some (digitVal y1 * 1000 + digitVal y2 * 100 + digitVal y3 * 10 + digitVal y4,
              digitVal m1 * 10 + digitVal m2, digitVal d1 * 10 + digitVal d2)
      else none
  | _ => none

/-- The strict `^\d{4}-\d{2}-\d{2}$` shape test. -/
def dateShapeOk (s : String) : Bool := (dateTriple s).isSome

/-- A (year, month, day) triple mapped to the comparable number
    `yyyymmdd`. -/
def tcode (t : Nat × Nat × Nat) : Nat := t.1 * 10000 + t.2.1 * 100 + t.2.2

/-- A date string mapped to the comparable number `yyyymmdd`. -/
def dateCode (s : String) : Option Nat := (dateTriple s).map tcode

/-- Day-granularity `dayjs` comparison: `d` denotes a calendar day strictly
    after `today`.  Comparisons involving an unparseable date are false,
    matching dayjs on invalid dates. -/
def dayAfter (d today : String) : Bool :=
  match dateCode d, dateCode today with
  | some x, some y => decide (y < x)
  | _, _ => false

def leapYear (y : Nat) : Bool := (y % 4 == 0 && y % 100 != 0) || y % 400 == 0

def daysInMonth (y m : Nat) : Nat :=
  if m == 2 then (if leapYear y then 29 else 28)
  else if m == 4 || m == 6 || m == 9 || m == 11 then 30 else 31

/-- Strict `YYYY-MM-DD` shape together with calendar-valid month and day
    numbers: the format of every canonical day key the system itself
    produces via `getBeijingDateString`.  Used to state theorem
    domains. -/
def strictDateValid (s : String) : Bool :=
  match dateTriple s with
  | some (y, m, d) =>
      decide (1 ≤ m) && decide (m ≤ 12) && decide (1 ≤ d) && decide (d ≤ daysInMonth y m)
  | none => false

theorem dateShapeOk_of_strictDateValid {s : String} (h : strictDateValid s = true) :
    dateShapeOk s = true := by
  unfold strictDateValid at h
  unfold dateShapeOk
  cases ht : dateTriple s with
  | none => rw [ht] at h; exact absurd h (by simp)
  | some t => simp [ht]

/- ----------------------------------------------------------------------
   dayjs's lenient default parse.

   part_001 loads neither the customParseFormat nor the isSameOrBefore
   dayjs plugin (it extends only utc and timezone, part_001 lines 5-11).
   Its calls `dayjs(s, 'YYYY-MM-DD', true)` therefore silently ignore the
   format and strict arguments and run dayjs's lenient default string
   parse, modelled here: the dayjs parse regular expression restricted to
   date-only input (four-digit year, optional `-`/`/` separator, optional
   one- or two-digit month, optional separator, optional day of up to two
   digits), followed by JavaScript `new Date(y, m-1, d)` rollover
   normalization.  Strings that only the JavaScript `new Date(string)`
   fallback would accept (month-name forms and the like) and time-of-day
   suffixes are outside the modelled input space — day keys never carry
   them.
   ---------------------------------------------------------------------- -/

/-- Decimal value of a digit-character list. -/
def natOfDigits (cs : List Char) : Nat :=
  cs.foldl (fun acc c => acc * 10 + digitVal c) 0

/-- Take up to two leading decimal digits (the month and day captures of
    the dayjs parse regex, matched greedily). -/
def takeUpTo2Digits : List Char → List Char × List Char
  | [] => ([], [])
  | c1 :: rest =>
      if c1.isDigit then
        match rest with
        | c2 :: rest2 => if c2.isDigit then ([c1, c2], rest2) else ([c1], rest)
        | [] => ([c1], [])
      else ([], c1 :: rest)

/-- Skip one optional `-` or `/` separator. -/
def dropSep : List Char → List Char
  | [] => []
  | c :: rest => if c == '-' || c == '/' then rest else c :: rest

/-- JavaScript `new Date(y, m-1, d)` day rollover on a linear month count:
    a day of 0 borrows the previous month's last day, a day beyond the
    month's length carries into the following months.  The regex day field
    has at most two digits, so a fuel of 5 months always suffices. -/
def rollDays : Nat → Nat → Nat → Nat × Nat × Nat
  | 0, ym, d => (ym / 12, ym % 12 + 1, d)
  | fuel + 1, ym, d =>
      if d = 0 then
        ((ym - 1) / 12, (ym - 1) % 12 + 1,
         daysInMonth ((ym - 1) / 12) ((ym - 1) % 12 + 1))
      else if d ≤ daysInMonth (ym / 12) (ym % 12 + 1) then (ym / 12, ym % 12 + 1, d)
      else rollDays fuel (ym + 1) (d - daysInMonth (ym / 12) (ym % 12 + 1))

/-- `new Date(y, m-1, d)` as a calendar triple.  Months are carried via
    the linear month count `y*12 + (m-1)`, so month 0 borrows December of
    the previous year exactly as JavaScript does (the borrow at year 0,
    month 0 would leave the era; such keys are outside the modelled input
    space). -/
def jsDateNorm (y m d : Nat) : Nat × Nat × Nat := rollDays 5 (y * 12 + m - 1) d

/-- dayjs's default (lenient) string parse on date-only input.  A missing
    month parses as January and a missing day as 1, mirroring dayjs's
    defaults; `2024/01/01`, `2024-1-1` and `20240101` all parse, while
    `abcd-ef-gh` does not. -/
def dayjsParse (s : String) : Option (Nat × Nat × Nat) :=
  match s.toList with
  | y1 :: y2 :: y3 :: y4 :: rest =>
      if y1.isDigit && y2.isDigit && y3.isDigit && y4.isDigit then
        let y := digitVal y1 * 1000 + digitVal y2 * 100 + digitVal y3 * 10 + digitVal y4
        let p1 := takeUpTo2Digits (dropSep rest)
        let p2 := takeUpTo2Digits (dropSep p1.2)
        if p2.2 = [] then
          let m := if p1.1 = [] then 1 else natOfDigits p1.1
          let d := if p2.1 = [] then 1 else natOfDigits p2.1
          some (jsDateNorm y m d)
        else none
      else none
  | _ => none

/-- part_001 line 215 as it actually executes: with customParseFormat
    never loaded, `dayjs(s, 'YYYY-MM-DD', true).isValid()` is just the
    lenient default parse. -/
def p001ValidDate (s : String) : Bool := (dayjsParse s).isSome

/-- part_001 line 227 as it actually executes: the requested day string is
    parsed leniently and compared at day granularity against the current
    Beijing instant; `today` stands for that instant's canonical
    `YYYY-MM-DD` key, whose day numbers the strict parse recovers
    exactly. -/
def p001DayAfter (d today : String) : Bool :=
  match (dayjsParse d).map tcode, dateCode today with
  | some x, some y => decide (y < x)
  | _, _ => false

theorem jsDateNorm_id (y m d : Nat) (h1 : 1 ≤ m) (h2 : m ≤ 12) (h3 : 1 ≤ d)
    (h4 : d ≤ daysInMonth y m) : jsDateNorm y m d = (y, m, d) := by
  unfold jsDateNorm rollDays
  have e1 : (y * 12 + m - 1) / 12 = y := by omega
  have e2 : (y * 12 + m - 1) % 12 + 1 = m := by omega
  rw [if_neg (by omega), e1, e2, if_pos h4]

/-- On a canonical day key the lenient parse agrees with the strict
    parse. -/
theorem dayjsParse_of_strict (s : String) (h : strictDateValid s = true) :
    dayjsParse s = dateTriple s := by
  unfold strictDateValid at h
  cases hts : dateTriple s with
  | none => rw [hts] at h; exact absurd h (by simp)
  | some t =>
      obtain ⟨y, m, d⟩ := t
      rw [hts] at h
      simp only [Bool.and_eq_true, decide_eq_true_eq] at h
      obtain ⟨⟨⟨hm1, hm2⟩, hd1⟩, hd2⟩ := h
      unfold dateTriple at hts
      split at hts
      next y1 y2 y3 y4 s1 m1 m2 s2 d1 d2 heq =>
        split_ifs at hts with hdig
        simp only [Bool.and_eq_true, beq_iff_eq] at hdig
        obtain ⟨⟨⟨⟨⟨⟨⟨⟨⟨hy1, hy2⟩, hy3⟩, hy4⟩, hs1⟩, hm1d⟩, hm2d⟩, hs2⟩, hd1d⟩, hd2d⟩ := hdig
        injection hts with hts
        rw [Prod.mk.injEq, Prod.mk.injEq] at hts
        obtain ⟨hY, hM, hD⟩ := hts
        subst hY
        subst hM
        subst hD
        subst hs1
        subst hs2
        unfold dayjsParse
        rw [heq]
        simp [hy1, hy2, hy3, hy4, hm1d, hm2d, hd1d, hd2d, dropSep,
          takeUpTo2Digits, natOfDigits]
        rw [jsDateNorm_id _ _ _ hm1 hm2 hd1 hd2]
      next => exact absurd hts (by simp)

theorem p001DayAfter_eq_dayAfter {d : String} (today : String)
    (hp : dayjsParse d = dateTriple d) : p001DayAfter d today = dayAfter d today := by
  unfold p001DayAfter dayAfter dateCode
  rw [hp]

/- ----------------------------------------------------------------------
   The JSON file format.
   ---------------------------------------------------------------------- -/

/-- A JSON value, the parse result of a persisted stats file. -/
inductive JsonVal where
  | jnum (n : Int)
  | jstr (s : String)
  | jbool (b : Bool)
  | jnull
  | jobj (fields : List (String × JsonVal))

/-- `JSON.stringify` image of one entity's counters (field order as in the
    zero-initialisation of the handlers). -/
def encodeCounters (e : EntityCounters) : JsonVal :=
  .jobj [("totalTimeMs", .jnum e.totalTimeMs),
         ("userMsgCount", .jnum e.userMsgCount),
         ("aiMsgCount", .jnum e.aiMsgCount),
         ("userWordCount", .jnum e.userWordCount),
         ("aiWordCount", .jnum e.aiWordCount)]

/-- `JSON.stringify` image of a whole day bucket. -/
def encodeBucket (b : DayBucket) : JsonVal :=
  .jobj (b.map fun p => (p.1, encodeCounters p.2))

def jgetNum (fields : List (String × JsonVal)) (k : String) : Option Int :=
  match alistGet fields k with
  | some (.jnum n) => some n
  | _ => none

/-- Reading one entity's counters out of a parsed JSON value. -/
def decodeCounters : JsonVal → Option EntityCounters
  | .jobj fs =>
      match jgetNum fs "totalTimeMs", jgetNum fs "userMsgCount", jgetNum fs "aiMsgCount",
            jgetNum fs "userWordCount", jgetNum fs "aiWordCount" with
      | some a, some b, some c, some d, some e => some ⟨a, b, c, d, e⟩
      | _, _, _, _, _ => none
  | _ => none

def decodeBucketFields : List (String × JsonVal) → Option DayBucket
  | [] => some []
  | (k, j) :: t =>
      match decodeCounters j, decodeBucketFields t with
      | some e, some r => some ((k, e) :: r)
      | _, _ => none

/-- Reading a whole day bucket out of a parsed JSON value. -/
def decodeBucket : JsonVal → Option DayBucket
  | .jobj fs => decodeBucketFields fs
  | _ => none

/-- `JSON.parse` of a stats file followed by the handlers' use of the value
    as an entity table.  Files written by this system always decode; the
    default covers only JSON values the system itself never writes. -/
def decodeBucketD (j : JsonVal) : DayBucket := (decodeBucket j).getD []

/- ----------------------------------------------------------------------
   Disk, cache and the stateful operations.
   ---------------------------------------------------------------------- -/

/-- Result of `fs.readFile` + `JSON.parse` for one day file: the parsed
    content, `ENOENT`, or any other read error. -/
inductive FileRead where
  | found (content : JsonVal)
  | absent
  | failure

/-- The file system, one entry per day-key file. -/
abbrev Disk := String → FileRead

/-- The mutable module state shared by the handlers: the day cache and the
    global `cacheDirty` flag. -/
structure ServerState where
  cache : Cache
  dirty : Bool

/-- server.mjs `loadOrGetStatsForDate` lines 55-78.  Returns the bucket, the
    updated cache and whether a disk read was performed.  On `ENOENT` an
    empty bucket is cached; on any other read error an empty bucket is
    returned **without** being cached (line 75 returns before the cache is
    written). -/
def loadOrGetServer (dateString : String) (cache : Cache) (disk : Disk) :
    DayBucket × Cache × Bool :=
  match alistGet cache dateString with
  | some b => (b, cache, false)
  | none =>
      match disk dateString with
      | .found j =>
          let stats := decodeBucketD j
          (stats, alistSet cache dateString stats, true)
      | .absent => ([], alistSet cache dateString [], true)
      | .failure => ([], cache, true)

/-- part_000 `loadOrGetStatsForDate` lines 40-63 and part_001 lines 68-93:
    identical to the server variant except that an empty bucket is cached
    on **every** error path, including non-`ENOENT` failures. -/
def loadOrGetP (dateString : String) (cache : Cache) (disk : Disk) :
    DayBucket × Cache × Bool :=
  match alistGet cache dateString with
  | some b => (b, cache, false)
  | none =>
      match disk dateString with
      | .found j =>
          let stats := decodeBucketD j
          (stats, alistSet cache dateString stats, true)
      | .absent => ([], alistSet cache dateString [], true)
      | .failure => ([], alistSet cache dateString [], true)

/-- server.mjs `flushCacheToDisk` lines 84-120.  `writeOk` says which day
    files can be written (it also absorbs `mkdir` failures, which the source
    catches inside the same per-date `try`).  In non-force mode only today's
    key is flushed when the global flag is dirty.  Line 119 resets
    `cacheDirty = false` unconditionally, even when a write failed. -/
def serverFlush (force : Bool) (today : String) (writeOk : String → Bool)
    (st : ServerState) (disk : Disk) : ServerState × Disk :=
  if !st.dirty && !force then (st, disk)
  else
    let dates := if force then st.cache.map Prod.fst
                 else if st.dirty then [today] else []
    let disk' := dates.foldl (fun d ds =>
        match alistGet st.cache ds with
        | none => d
        | some bucket =>
            if writeOk ds then
              fun k => if k = ds then .found (encodeBucket bucket) else d k
            else d) disk
    (⟨st.cache, false⟩, disk')

/-- part_000 `flushCacheToDisk` lines 66-92: after an early return when
    the cache is clean and the call unforced, and an early return when
    creating the data directory fails (which keeps the dirty flag), every
    cached key is written; write errors are only logged, and `cacheDirty`
    is cleared unconditionally at the end. -/
def p000Flush (force : Bool) (mkdirOk : Bool) (writeOk : String → Bool)
    (st : ServerState) (disk : Disk) : ServerState × Disk :=
  if !st.dirty && !force then (st, disk)
  else if !mkdirOk then (st, disk)
  else
    let disk' := (st.cache.map Prod.fst).foldl (fun d ds =>
        match alistGet st.cache ds with
        | none => d
        | some bucket =>
            if writeOk ds then
              fun k => if k = ds then .found (encodeBucket bucket) else d k
            else d) disk
    (⟨st.cache, false⟩, disk')

/-- part_001 `flushCacheToDisk` lines 99-126 as it actually executes.
    After the early-return guards, `cacheDirty` is cleared (line 110) and
    the loop's per-date guard calls `.isSameOrBefore` — but part_001 never
    extends the isSameOrBefore dayjs plugin, so with any cached entry
    (cached buckets are always truthy objects) the first iteration throws
    a TypeError: no file is written, the cleared dirty flag stays cleared,
    and the exception propagates to the caller.  The Boolean in the result
    records whether the call threw. -/
def p001Flush (force : Bool) (st : ServerState) (disk : Disk) :
    ServerState × Disk × Bool :=
  if !st.dirty && !force then (st, disk, false)
  else if st.cache.isEmpty && !force then (st, disk, false)
  else if st.cache.isEmpty then (⟨st.cache, false⟩, disk, false)
  else (⟨st.cache, false⟩, disk, true)

/- ----------------------------------------------------------------------
   HTTP handlers.
   ---------------------------------------------------------------------- -/

/-- Response of a /track handler. -/
inductive TrackResp where
  | ok
  | badRequest
deriving DecidableEq, Repr

/-- Response of a /stats handler. -/
inductive StatsResp where
  | ok (stats : DayBucket)
  | badRequest
deriving DecidableEq, Repr

/-- server.mjs `/track` handler lines 153-206 (the current Beijing day
    string is passed in as `today`).  Note that the in-place mutation of the
    bucket object is only visible in the cache when `loadOrGetStatsForDate`
    actually cached the bucket, which is every path except a non-`ENOENT`
    read failure. -/
def serverTrack (today : String) (disk : Disk) (st : ServerState) (r : TrackReq) :
    TrackResp × ServerState :=
  if r.entityId = "" then (.badRequest, st)
  else if r.timeIncrementMs = .undef ∧ r.messageIncrement = .undef then (.badRequest, st)
  else
    let l := loadOrGetServer today st.cache disk
    let bucket' := applyTrackServer r l.1
    let cache2 :=
      if (alistGet l.2.1 today).isSome then alistSet l.2.1 today bucket' else l.2.1
    (.ok, ⟨cache2, true⟩)

/-- part_000 `/track` handler lines 113-169: only `entityId` is validated;
    part_000's load caches on every path, so the mutation always lands. -/
def p000Track (today : String) (disk : Disk) (st : ServerState) (r : TrackReq) :
    TrackResp × ServerState :=
  if r.entityId = "" then (.badRequest, st)
  else
    let l := loadOrGetP today st.cache disk
    (.ok, ⟨alistSet l.2.1 today (alistSet l.1 r.entityId
        (applyIncP000 r ((alistGet l.1 r.entityId).getD zeroCounters))), true⟩)

/-- part_001 `/track` handler lines 151-207: validates `entityId`, requires
    at least one of the two increments (`== null` test), and requires a
    boolean `isUser` whenever a message increment is supplied. -/
def p001Track (today : String) (disk : Disk) (st : ServerState) (r : TrackReq) :
    TrackResp × ServerState :=
  if r.entityId = "" then (.badRequest, st)
  else if r.timeIncrementMs.isNullish && r.messageIncrement.isNullish then (.badRequest, st)
  else if !r.messageIncrement.isNullish && !r.isUser.isBoolVal then (.badRequest, st)
  else
    let l := loadOrGetP today st.cache disk
    (.ok, ⟨alistSet l.2.1 today (alistSet l.1 r.entityId
        (applyIncP001 r ((alistGet l.1 r.entityId).getD zeroCounters))), true⟩)

/-- server.mjs `/stats` handler lines 210-242.  An absent or empty `date`
    query parameter defaults to today (`!dateString` is falsy for the empty
    string); otherwise the strict shape regex and the future-day check run;
    a request for today first flushes today's dirty cache. -/
def serverStats (today : String) (dateQ : Option String) (writeOk : String → Bool)
    (st : ServerState) (disk : Disk) : StatsResp × ServerState × Disk :=
  let q : Option String :=
    match dateQ with
    | some s => if s = "" then none else some s
    | none => none
  match q with
  | none =>
      let fd := serverFlush false today writeOk st disk
      let r := loadOrGetServer today fd.1.cache fd.2
      (.ok r.1, ⟨r.2.1, fd.1.dirty⟩, fd.2)
  | some d =>
      if dateShapeOk d = false then (.badRequest, st, disk)
      else if dayAfter d today = true then (.badRequest, st, disk)
      else
        let fd := if d = today then serverFlush false today writeOk st disk else (st, disk)
        let r := loadOrGetServer d fd.1.cache fd.2
        (.ok r.1, ⟨r.2.1, fd.1.dirty⟩, fd.2)

/-- part_000 `/stats` handler lines 172-194: same validations as server.mjs
    but no flush before reading; the handler never writes the disk. -/
def p000Stats (today : String) (dateQ : Option String) (st : ServerState) (disk : Disk) :
    StatsResp × ServerState :=
  let d := match dateQ with
    | some s => if s = "" then today else s
    | none => today
  if dateShapeOk d = false then (.badRequest, st)
  else if dayAfter d today = true then (.badRequest, st)
  else
    let l := loadOrGetP d st.cache disk
    (.ok l.1, ⟨l.2.1, st.dirty⟩)

/-- part_001 `/stats` handler lines 211-240 as it actually executes: the
    intended strict validity check runs dayjs's lenient parser (no
    customParseFormat plugin), so a leniently parseable date string —
    `2024/01/01` included — is used verbatim as the lookup key, and only a
    string even the lenient parser rejects falls back to today; a future
    day returns `{}` with a success status without consulting cache or
    disk. -/
def p001Stats (today : String) (dateQ : Option String) (st : ServerState) (disk : Disk) :
    StatsResp × ServerState :=
  let dateString := match dateQ with
    | some s => if s ≠ "" && p001ValidDate s then s else today
    | none => today
  if p001DayAfter dateString today = true then (.ok [], st)
  else
    let l := loadOrGetP dateString st.cache disk
    (.ok l.1, ⟨l.2.1, st.dirty⟩)

/- ----------------------------------------------------------------------
   Algebra of counter deltas.
   ---------------------------------------------------------------------- -/

/-- The per-request contribution of one /track request under server.mjs's
    gates (word contribution only inside the positive-message branch). -/
def serverDelta (r : TrackReq) : EntityCounters :=
  let t : Int := match r.timeIncrementMs with
    | .num n => if 0 < n then n else 0
    | _ => 0
  let m : Int := match r.messageIncrement with
    | .num n => if 0 < n then n else 0
    | _ => 0
  let w : Int := match r.messageIncrement, r.wordIncrement with
    | .num n, .num v => if 0 < n ∧ 0 ≤ v then v else 0
    | _, _ => 0
  if r.isUser.truthy then ⟨t, m, 0, w, 0⟩ else ⟨t, 0, m, 0, w⟩

theorem addCounters_zero_left (a : EntityCounters) : addCounters zeroCounters a = a := by
  simp [addCounters, zeroCounters]

theorem addCounters_zero_right (a : EntityCounters) : addCounters a zeroCounters = a := by
  simp [addCounters, zeroCounters]

theorem addCounters_assoc (a b c : EntityCounters) :
    addCounters (addCounters a b) c = addCounters a (addCounters b c) := by
  simp [addCounters, Int.add_assoc]

/-- server.mjs's accumulation is the fieldwise addition of `serverDelta`. -/
theorem applyIncServer_eq_add (r : TrackReq) (e : EntityCounters) :
    applyIncServer r e = addCounters e (serverDelta r) := by
  unfold applyIncServer serverDelta addCounters
  cases r.timeIncrementMs <;> cases r.messageIncrement <;> cases r.wordIncrement <;>
    cases hu : r.isUser.truthy <;>
    simp_all <;> split_ifs <;> simp_all

/-- part_001's accumulation coincides with server.mjs's. -/
theorem applyIncP001_eq_server (r : TrackReq) (e : EntityCounters) :
    applyIncP001 r e = applyIncServer r e := by
  unfold applyIncP001 applyIncServer
  cases r.timeIncrementMs <;> cases r.messageIncrement <;> cases r.wordIncrement <;>
    cases hu : r.isUser.truthy <;>
    simp_all <;> split_ifs <;> simp_all

/-- Sum of the server.mjs per-request contributions over a request list. -/
def serverSums (reqs : List TrackReq) : EntityCounters :=
  reqs.foldl (fun acc r => addCounters acc (serverDelta r)) zeroCounters

/-- Modelled from the words of claim C1: the per-request contribution in
    which **every** positive numeric increment supplied for a field counts
    towards that field (attribution by the truthiness of `isUser`), and
    negative or non-numeric increments contribute zero. -/
def c1ClaimDelta (r : TrackReq) : EntityCounters :=
  let pos : JSVal → Int := fun v =>
    match v with
    | .num n => if 0 < n then n else 0
    | _ => 0
  if r.isUser.truthy then
    ⟨pos r.timeIncrementMs, pos r.messageIncrement, 0, pos r.wordIncrement, 0⟩
  else
    ⟨pos r.timeIncrementMs, 0, pos r.messageIncrement, 0, pos r.wordIncrement⟩

/-- Modelled from the words of claim C1: the claimed per-field sums. -/
def c1ClaimSums (reqs : List TrackReq) : EntityCounters :=
  reqs.foldl (fun acc r => addCounters acc (c1ClaimDelta r)) zeroCounters

theorem foldl_addCounters (f : TrackReq → EntityCounters) (reqs : List TrackReq)
    (c : EntityCounters) :
    reqs.foldl (fun acc r => addCounters acc (f r)) c
      = addCounters c (reqs.foldl (fun acc r => addCounters acc (f r)) zeroCounters) := by
  induction reqs generalizing c with
  | nil => simp [addCounters_zero_right]
  | cons r t ih =>
      simp only [List.foldl_cons]
      rw [ih (addCounters c (f r)), ih (addCounters zeroCounters (f r)),
          addCounters_zero_left, addCounters_assoc]

theorem trackFoldServer_get (reqs : List TrackReq) (e : String)
    (h : ∀ r ∈ reqs, r.entityId = e) (b : DayBucket) :
    (alistGet (trackFoldServer reqs b) e).getD zeroCounters
      = reqs.foldl (fun acc r => addCounters acc (serverDelta r))
          ((alistGet b e).getD zeroCounters) := by
  induction reqs generalizing b with
  | nil => simp [trackFoldServer]
  | cons r t ih =>
      have hr : r.entityId = e := h r (List.mem_cons_self r t)
      have ht : ∀ x ∈ t, x.entityId = e := fun x hx => h x (List.mem_cons_of_mem r hx)
      show (alistGet (trackFoldServer t (applyTrackServer r b)) e).getD zeroCounters = _
      rw [ih ht]
      simp only [List.foldl_cons]
      congr 1
      unfold applyTrackServer
      rw [hr, alistGet_set_self, Option.getD_some, applyIncServer_eq_add]

/-- A request carrying a positive time increment and a positive word
    increment but no message increment. -/
def c1Req : TrackReq := ⟨"char1", .num 1, .undef, .num 10, .jsbool true⟩

/-- Claim C1 as stated is false: for the single-request sequence `c1Req`
    (a positive word increment of 10 supplied without a message increment),
    server.mjs leaves `userWordCount` at 0, while the claimed per-field sum
    is 10. -/
theorem c1_word_requires_message_cex :
    (alistGet (trackFoldServer [c1Req] []) "char1").getD zeroCounters
      ≠ c1ClaimSums [c1Req] := by decide

/-- Claim C1 (amended): in server.mjs and part_001 (whose accumulation
    coincides with server.mjs's), for every sequence of tracking increments
    applied to the same entity on the same day, each counter equals the sum
    of the per-request contributions `serverDelta`: time and message fields
    sum the positive numeric increments supplied for them (negative and
    non-numeric increments contribute zero, attribution by the truthiness
    of `isUser`), while a word increment contributes only when the same
    request also carries a positive numeric message increment. -/
theorem c1_per_field_sums :
    (∀ (reqs : List TrackReq) (e : String), (∀ r ∈ reqs, r.entityId = e) →
        (alistGet (trackFoldServer reqs []) e).getD zeroCounters = serverSums reqs) ∧
    (∀ (r : TrackReq) (c : EntityCounters), applyIncP001 r c = applyIncServer r c) := by
  constructor
  · intro reqs e h
    rw [trackFoldServer_get reqs e h []]
    simp [alistGet, serverSums]
  · exact applyIncP001_eq_server

/-- Instance of `c1_per_field_sums` at a concrete two-request sequence. -/
theorem c1_per_field_sums_witness :
    (alistGet (trackFoldServer
        [⟨"char1", .num 5000, .num 1, .num 12, .jsbool true⟩,
         ⟨"char1", .undef, .num 1, .num 30, .jsbool false⟩] []) "char1").getD zeroCounters
      = serverSums
        [⟨"char1", .num 5000, .num 1, .num 12, .jsbool true⟩,
         ⟨"char1", .undef, .num 1, .num 30, .jsbool false⟩] :=
  c1_per_field_sums.1
    [⟨"char1", .num 5000, .num 1, .num 12, .jsbool true⟩,
     ⟨"char1", .undef, .num 1, .num 30, .jsbool false⟩] "char1" (by decide)


/- ----------------------------------------------------------------------
   Counter invariants.
   ---------------------------------------------------------------------- -/

theorem countersLe_refl (a : EntityCounters) : countersLe a a := by
  simp [countersLe]

theorem countersLe_trans {a b c : EntityCounters}
    (h1 : countersLe a b) (h2 : countersLe b c) : countersLe a c := by
  unfold countersLe at *
  omega

theorem serverDelta_nonneg (r : TrackReq) : countersLe zeroCounters (serverDelta r) := by
  obtain ⟨id, ti, mi, wi, iu⟩ := r
  unfold serverDelta
  dsimp only
  cases iu <;> cases ti <;> cases mi <;> cases wi <;>
    simp [countersLe, zeroCounters, JSVal.truthy] <;> (try split_ifs) <;>
    (try simp) <;> omega

theorem countersLe_add_right (e d : EntityCounters)
    (h : countersLe zeroCounters d) : countersLe e (addCounters e d) := by
  obtain ⟨h1, h2, h3, h4, h5⟩ := h
  simp [countersLe, addCounters, zeroCounters] at *
  omega

theorem applyTrackServer_mono (r : TrackReq) (b : DayBucket) (e : String) :
    countersLe ((alistGet b e).getD zeroCounters)
      ((alistGet (applyTrackServer r b) e).getD zeroCounters) := by
  unfold applyTrackServer
  by_cases he : r.entityId = e
  · subst he
    rw [alistGet_set_self, Option.getD_some, applyIncServer_eq_add]
    exact countersLe_add_right _ _ (serverDelta_nonneg r)
  · rw [alistGet_set_ne _ _ _ _ he]
    exact countersLe_refl _

theorem trackFoldServer_nonneg (reqs : List TrackReq) (e : String) :
    countersLe zeroCounters ((alistGet (trackFoldServer reqs []) e).getD zeroCounters) := by
  have main : ∀ (rs : List TrackReq) (b : DayBucket),
      countersLe zeroCounters ((alistGet b e).getD zeroCounters) →
      countersLe zeroCounters ((alistGet (trackFoldServer rs b) e).getD zeroCounters) := by
    intro rs
    induction rs with
    | nil => intro b hb; exact hb
    | cons r t ih =>
        intro b hb
        exact ih (applyTrackServer r b)
          (countersLe_trans hb (applyTrackServer_mono r b e))
  exact main reqs [] (by simp [alistGet, countersLe, zeroCounters])

theorem jsGatePos (v : JSVal) : (v.truthy && v.gtZero) = true → 0 < v.toNum := by
  cases v with
  | num n => simp [JSVal.truthy, JSVal.gtZero, JSVal.toNum]
  | jsbool b => cases b <;> simp [JSVal.truthy, JSVal.gtZero, JSVal.toNum]
  | jsnull => simp [JSVal.truthy, JSVal.gtZero]
  | undef => simp [JSVal.truthy, JSVal.gtZero]

theorem applyIncP000_mono (r : TrackReq) (c : EntityCounters) :
    countersLe c (applyIncP000 r c) := by
  have h1 := jsGatePos r.timeIncrementMs
  have h2 := jsGatePos r.messageIncrement
  have h3 := jsGatePos r.wordIncrement
  unfold applyIncP000
  split_ifs <;> simp_all [countersLe] <;> omega

theorem serverDelta_time_zero (r : TrackReq)
    (h : r.timeIncrementMs.isPosNum = false) : (serverDelta r).totalTimeMs = 0 := by
  obtain ⟨id, ti, mi, wi, iu⟩ := r
  unfold serverDelta
  dsimp only
  unfold JSVal.isPosNum at h
  split_ifs <;> cases ti <;> simp_all

theorem serverDelta_msg_zero (r : TrackReq)
    (h : r.messageIncrement.isPosNum = false) :
    (serverDelta r).userMsgCount = 0 ∧ (serverDelta r).aiMsgCount = 0 := by
  obtain ⟨id, ti, mi, wi, iu⟩ := r
  unfold serverDelta
  dsimp only
  unfold JSVal.isPosNum at h
  split_ifs <;> cases mi <;> simp_all

theorem serverDelta_word_zero (r : TrackReq)
    (h : r.wordIncrement.isPosNum = false) :
    (serverDelta r).userWordCount = 0 ∧ (serverDelta r).aiWordCount = 0 := by
  obtain ⟨id, ti, mi, wi, iu⟩ := r
  unfold serverDelta
  dsimp only
  unfold JSVal.isPosNum at h
  split_ifs <;> cases mi <;> cases wi <;> simp_all <;> omega

theorem applyIncServer_time_noop (r : TrackReq) (c : EntityCounters)
    (h : r.timeIncrementMs.isPosNum = false) :
    (applyIncServer r c).totalTimeMs = c.totalTimeMs := by
  rw [applyIncServer_eq_add]
  have := serverDelta_time_zero r h
  simp [addCounters, this]

theorem applyIncServer_msg_noop (r : TrackReq) (c : EntityCounters)
    (h : r.messageIncrement.isPosNum = false) :
    (applyIncServer r c).userMsgCount = c.userMsgCount ∧
    (applyIncServer r c).aiMsgCount = c.aiMsgCount := by
  rw [applyIncServer_eq_add]
  have := serverDelta_msg_zero r h
  simp [addCounters, this.1, this.2]

theorem applyIncServer_word_noop (r : TrackReq) (c : EntityCounters)
    (h : r.wordIncrement.isPosNum = false) :
    (applyIncServer r c).userWordCount = c.userWordCount ∧
    (applyIncServer r c).aiWordCount = c.aiWordCount := by
  rw [applyIncServer_eq_add]
  have := serverDelta_word_zero r h
  simp [addCounters, this.1, this.2]

theorem applyIncP000_time (r : TrackReq) (c : EntityCounters) :
    (applyIncP000 r c).totalTimeMs =
      (if (r.timeIncrementMs.truthy && r.timeIncrementMs.gtZero) = true
       then c.totalTimeMs + r.timeIncrementMs.toNum else c.totalTimeMs) := by
  unfold applyIncP000
  split_ifs <;> simp_all

/-- A request whose time increment is the boolean `true` (not a number). -/
def c2Req : TrackReq := ⟨"char1", .jsbool true, .undef, .undef, .undef⟩

/-- Claim C2 as stated is false for part_000: a time increment of boolean
    `true` is not a positive number, yet part_000's truthiness/coercion
    gate (`timeIncrementMs && timeIncrementMs > 0`) accepts it and adds 1
    instead of ignoring it as a no-op. -/
theorem c2_boolean_increment_cex :
    (applyIncP000 c2Req zeroCounters).totalTimeMs ≠ zeroCounters.totalTimeMs := by decide

/-- Claim C2 (amended): counters are zero-initialized when an entity is
    first seen, each tracking operation is fieldwise non-decreasing, every
    reachable counter is non-negative, and — in server.mjs and part_001
    (whose accumulation coincides with server.mjs's) — an increment whose
    value is not a positive number is ignored as a no-op on its counter
    fields (word-count increments of zero are likewise no-ops).  In
    part_000 the no-op rule holds only for the coercing gate
    `v && v > 0`: a truthy non-numeric value coercing above zero (such as
    `true`) is added after numeric coercion, though part_000's updates are
    still fieldwise non-decreasing. -/
theorem c2_counter_invariants :
    (∀ (r : TrackReq) (b : DayBucket), alistGet b r.entityId = none →
        alistGet (applyTrackServer r b) r.entityId = some (applyIncServer r zeroCounters)) ∧
    (∀ (r : TrackReq) (b : DayBucket) (e : String),
        countersLe ((alistGet b e).getD zeroCounters)
          ((alistGet (applyTrackServer r b) e).getD zeroCounters)) ∧
    (∀ (reqs : List TrackReq) (e : String),
        countersLe zeroCounters ((alistGet (trackFoldServer reqs []) e).getD zeroCounters)) ∧
    (∀ (r : TrackReq) (c : EntityCounters), r.timeIncrementMs.isPosNum = false →
        (applyIncServer r c).totalTimeMs = c.totalTimeMs) ∧
    (∀ (r : TrackReq) (c : EntityCounters), r.messageIncrement.isPosNum = false →
        (applyIncServer r c).userMsgCount = c.userMsgCount ∧
        (applyIncServer r c).aiMsgCount = c.aiMsgCount) ∧
    (∀ (r : TrackReq) (c : EntityCounters), r.wordIncrement.isPosNum = false →
        (applyIncServer r c).userWordCount = c.userWordCount ∧
        (applyIncServer r c).aiWordCount = c.aiWordCount) ∧
    (∀ (r : TrackReq) (c : EntityCounters), applyIncP001 r c = applyIncServer r c) ∧
    (∀ (r : TrackReq) (c : EntityCounters), countersLe c (applyIncP000 r c)) ∧
    (∀ (r : TrackReq) (c : EntityCounters),
        (applyIncP000 r c).totalTimeMs =
          (if (r.timeIncrementMs.truthy && r.timeIncrementMs.gtZero) = true
           then c.totalTimeMs + r.timeIncrementMs.toNum else c.totalTimeMs)) := by
  refine ⟨?_, applyTrackServer_mono, trackFoldServer_nonneg, applyIncServer_time_noop,
          applyIncServer_msg_noop, applyIncServer_word_noop, applyIncP001_eq_server,
          applyIncP000_mono, applyIncP000_time⟩
  intro r b h
  unfold applyTrackServer
  rw [h, Option.getD_none, alistGet_set_self]

/-- Instance of `c2_counter_invariants`: a `-5` time increment is a no-op
    on `totalTimeMs`. -/
theorem c2_counter_invariants_witness :
    (applyIncServer ⟨"char1", .num (-5), .undef, .undef, .undef⟩
        ⟨7, 1, 2, 3, 4⟩).totalTimeMs = (⟨7, 1, 2, 3, 4⟩ : EntityCounters).totalTimeMs :=
  c2_counter_invariants.2.2.2.1 ⟨"char1", .num (-5), .undef, .undef, .undef⟩
    ⟨7, 1, 2, 3, 4⟩ (by decide)

/- ----------------------------------------------------------------------
   Flush and the dirty marker.
   ---------------------------------------------------------------------- -/

/-- The state c3's counterexample starts from: today's bucket is cached and
    dirty. -/
def c3State : ServerState := ⟨[("2024-01-15", [("char1", ⟨5, 0, 0, 0, 0⟩)])], true⟩

/-- Claim C3 as stated is false for server.mjs: flushing `c3State` when the
    write of today's file fails (the disk still has no entry afterwards)
    nevertheless clears the dirty marker, so the next tick does not retry
    the failed write. -/
theorem c3_failed_write_clears_dirty_cex :
    ((serverFlush false "2024-01-15" (fun _ => false) c3State (fun _ => .absent)).1).dirty
        = false ∧
    ((serverFlush false "2024-01-15" (fun _ => false) c3State (fun _ => .absent)).2)
        "2024-01-15" = .absent := by
  constructor <;> rfl

/-- Claim C3 (amended): no variant leaves the dirty marker set after a
    failed write.  server.mjs resets the flag unconditionally at the end
    of the flush, also when the file write failed; part_000, whenever the
    data directory can be created, does the same; part_001 clears the flag
    up front and then — because the isSameOrBefore dayjs plugin is never
    extended — throws a TypeError on the first cached entry before any
    write, leaving the flag cleared and the disk unchanged. -/
theorem c3_dirty_marker :
    (∀ (force : Bool) (today : String) (wk : String → Bool) (st : ServerState)
        (disk : Disk), ((serverFlush force today wk st disk).1).dirty = false) ∧
    (∀ (force : Bool) (wk : String → Bool) (st : ServerState) (disk : Disk),
        ((p000Flush force true wk st disk).1).dirty = false) ∧
    (∀ (force : Bool) (st : ServerState) (disk : Disk),
        st.cache ≠ [] → (st.dirty = true ∨ force = true) →
        p001Flush force st disk = (⟨st.cache, false⟩, disk, true)) := by
  refine ⟨?_, ?_, ?_⟩
  · intro force today wk st disk
    unfold serverFlush
    split_ifs with h
    · simp only [Bool.and_eq_true, Bool.not_eq_true'] at h
      exact h.1
    all_goals rfl
  · intro force wk st disk
    unfold p000Flush
    split_ifs with h1 h2
    · simp only [Bool.and_eq_true, Bool.not_eq_true'] at h1
      exact h1.1
    · simp at h2
    · rfl
  · intro force st disk hne hdf
    have hempty : st.cache.isEmpty = false := by
      cases hc : st.cache with
      | nil => exact absurd hc hne
      | cons a t => simp
    unfold p001Flush
    rw [hempty]
    rcases hdf with hd | hf
    · rw [hd]
      rw [if_neg (by simp), if_neg (by simp), if_neg (by simp)]
    · rw [hf]
      rw [if_neg (by simp), if_neg (by simp), if_neg (by simp)]

/-- Instance of `c3_dirty_marker`: a dirty cached day makes part_001's
    flush clear the marker, write nothing and throw. -/
theorem c3_dirty_marker_witness :
    p001Flush false ⟨[("2024-01-15", [])], true⟩ (fun _ => .absent)
      = (⟨[("2024-01-15", [])], false⟩, (fun _ => .absent), true) :=
  c3_dirty_marker.2.2 false ⟨[("2024-01-15", [])], true⟩ (fun _ => .absent)
    (by simp) (Or.inl rfl)

/- ----------------------------------------------------------------------
   Cache loading.
   ---------------------------------------------------------------------- -/

/-- Claim C4 as stated is false for server.mjs: when reading the day file
    fails with an error other than `ENOENT`, `loadOrGetStatsForDate`
    returns an empty bucket without caching it, so two consecutive calls
    for the same key both perform a disk read — more than one read per
    process lifetime. -/
theorem c4_failure_rereads_cex :
    (loadOrGetServer "2024-01-15" [] (fun _ => .failure)).2.2 = true ∧
    (loadOrGetServer "2024-01-15"
        (loadOrGetServer "2024-01-15" [] (fun _ => .failure)).2.1
        (fun _ => .failure)).2.2 = true := by
  constructor <;> rfl

/-- Claim C4 (amended): a cached key is answered from memory with no disk
    read; when the first read succeeds or fails with `ENOENT`, server.mjs
    caches the result, and a second call returns the same bucket contents
    without reading the disk; in part_000/part_001 the same holds with no
    proviso because their load caches an empty bucket on every error
    path.  Only server.mjs's non-`ENOENT` failure path re-reads. -/
theorem c4_load_idempotent :
    (∀ (key : String) (cache : Cache) (disk : Disk) (b : DayBucket),
        alistGet cache key = some b →
        loadOrGetServer key cache disk = (b, cache, false)) ∧
    (∀ (key : String) (cache : Cache) (disk : Disk), disk key ≠ .failure →
        loadOrGetServer key (loadOrGetServer key cache disk).2.1 disk
          = ((loadOrGetServer key cache disk).1,
             (loadOrGetServer key cache disk).2.1, false)) ∧
    (∀ (key : String) (cache : Cache) (disk : Disk),
        loadOrGetP key (loadOrGetP key cache disk).2.1 disk
          = ((loadOrGetP key cache disk).1, (loadOrGetP key cache disk).2.1, false)) := by
  refine ⟨?_, ?_, ?_⟩
  · intro key cache disk b h
    simp [loadOrGetServer, h]
  · intro key cache disk h
    cases hc : alistGet cache key with
    | some b => simp [loadOrGetServer, hc]
    | none =>
        cases hd : disk key with
        | found j => simp [loadOrGetServer, hc, hd, alistGet_set_self]
        | absent => simp [loadOrGetServer, hc, hd, alistGet_set_self]
        | failure => exact absurd hd h
  · intro key cache disk
    cases hc : alistGet cache key with
    | some b => simp [loadOrGetP, hc]
    | none =>
        cases hd : disk key with
        | found j => simp [loadOrGetP, hc, hd, alistGet_set_self]
        | absent => simp [loadOrGetP, hc, hd, alistGet_set_self]
        | failure => simp [loadOrGetP, hc, hd, alistGet_set_self]

/-- Instance of `c4_load_idempotent`: with no file on disk, the second of
    two consecutive loads is memory-only and returns the cached empty
    bucket. -/
theorem c4_load_idempotent_witness :
    loadOrGetServer "2024-01-15"
        (loadOrGetServer "2024-01-15" [] (fun _ => .absent)).2.1 (fun _ => .absent)
      = ((loadOrGetServer "2024-01-15" [] (fun _ => .absent)).1,
         (loadOrGetServer "2024-01-15" [] (fun _ => .absent)).2.1, false) :=
  c4_load_idempotent.2.1 "2024-01-15" [] (fun _ => .absent)
    (by intro h; exact FileRead.noConfusion h)

/- ----------------------------------------------------------------------
   Query validation.
   ---------------------------------------------------------------------- -/

/-- Claim C5 as stated is false for part_001: querying the malformed day
    string `2024/01/01` does not produce a validation error.  Because the
    customParseFormat plugin is never loaded, dayjs parses the string
    leniently as a valid date, the handler uses it verbatim as the lookup
    key, and answers with that (empty) day's data and a success status —
    today's cached bucket is not what is returned either. -/
theorem c5_malformed_returns_data_cex :
    (p001Stats "2024-01-15" (some "2024/01/01")
        ⟨[("2024-01-15", [("char1", ⟨5, 1, 0, 2, 0⟩)])], false⟩
        (fun _ => .absent)).1
      = .ok [] := by decide

/-- Claim C5 (amended): server.mjs and part_000 reject any day string that
    fails the strict `YYYY-MM-DD` regex with a validation error and leave
    all state unchanged; part_001 never reports a validation error — its
    strict-parse arguments are ignored without the customParseFormat
    plugin, so a day string that dayjs's lenient default parse accepts
    (such as `2024/01/01`) is used verbatim as the lookup key and answered
    with that key's data, while a string even the lenient parse rejects
    (such as `abcd-ef-gh`) silently falls back to today's key. -/
theorem c5_malformed_date :
    (∀ (today d : String) (wk : String → Bool) (st : ServerState) (disk : Disk),
        d ≠ "" → dateShapeOk d = false →
        serverStats today (some d) wk st disk = (.badRequest, st, disk)) ∧
    (∀ (today d : String) (st : ServerState) (disk : Disk),
        d ≠ "" → dateShapeOk d = false →
        p000Stats today (some d) st disk = (.badRequest, st)) ∧
    (∀ (today d : String) (st : ServerState) (disk : Disk),
        d ≠ "" → p001ValidDate d = true → p001DayAfter d today = false →
        p001Stats today (some d) st disk
          = (.ok (loadOrGetP d st.cache disk).1,
             ⟨(loadOrGetP d st.cache disk).2.1, st.dirty⟩)) ∧
    (∀ (today : String) (st : ServerState) (disk : Disk),
        p001Stats today (some "abcd-ef-gh") st disk = p001Stats today none st disk) := by
  refine ⟨?_, ?_, ?_, ?_⟩
  · intro today d wk st disk hne h
    unfold serverStats
    simp only [if_neg hne]
    rw [if_pos h]
  · intro today d st disk hne h
    unfold p000Stats
    simp only [if_neg hne]
    rw [if_pos h]
  · intro today d st disk hne hv hf
    unfold p001Stats
    simp [hne, hv, hf]
  · intro today st disk
    unfold p001Stats
    simp [show p001ValidDate "abcd-ef-gh" = false from by decide]

/-- Instance of `c5_malformed_date`: part_001 serves the leniently-valid
    malformed key `2024/01/01` verbatim (here: an empty bucket, which also
    gets cached under that key). -/
theorem c5_malformed_date_witness :
    p001Stats "2024-01-15" (some "2024/01/01") ⟨[], false⟩ (fun _ => .absent)
      = (.ok (loadOrGetP "2024/01/01" [] (fun _ => .absent)).1,
         ⟨(loadOrGetP "2024/01/01" [] (fun _ => .absent)).2.1, false⟩) :=
  c5_malformed_date.2.2.1 "2024-01-15" "2024/01/01" ⟨[], false⟩ (fun _ => .absent)
    (by decide) (by decide) (by decide)

/-- Claim C6: for a syntactically valid day key strictly after today,
    server.mjs and part_000 reject the query with a future-date error and
    mutate no state, while part_001 answers with an empty mapping and an
    unchanged state without consulting the cache or the disk; no variant
    ever returns stored counter data for a future day, and each variant's
    policy is a total function of the request, hence applied
    consistently. -/
theorem c6_future_day_policy :
    (∀ (today d : String) (wk : String → Bool) (st : ServerState) (disk : Disk),
        dateShapeOk d = true → dayAfter d today = true →
        serverStats today (some d) wk st disk = (.badRequest, st, disk)) ∧
    (∀ (today d : String) (st : ServerState) (disk : Disk),
        dateShapeOk d = true → dayAfter d today = true →
        p000Stats today (some d) st disk = (.badRequest, st)) ∧
    (∀ (today d : String) (st : ServerState) (disk : Disk),
        strictDateValid d = true → dayAfter d today = true →
        p001Stats today (some d) st disk = (.ok [], st)) := by
  refine ⟨?_, ?_, ?_⟩
  · intro today d wk st disk h1 h2
    have hne : d ≠ "" := by
      intro he; rw [he] at h1; exact absurd h1 (by decide)
    unfold serverStats
    simp only [if_neg hne]
    rw [if_neg (by simp [h1]), if_pos h2]
  · intro today d st disk h1 h2
    have hne : d ≠ "" := by
      intro he; rw [he] at h1; exact absurd h1 (by decide)
    unfold p000Stats
    simp only [if_neg hne]
    rw [if_neg (by simp [h1]), if_pos h2]
  · intro today d st disk h1 h2
    have hp : dayjsParse d = dateTriple d := dayjsParse_of_strict d h1
    have hshape : dateShapeOk d = true := dateShapeOk_of_strictDateValid h1
    have hne : d ≠ "" := by
      intro he; rw [he] at hshape; exact absurd hshape (by decide)
    have hv : p001ValidDate d = true := by
      unfold p001ValidDate
      rw [hp]
      unfold dateShapeOk at hshape
      exact hshape
    have hf : p001DayAfter d today = true := by
      rw [p001DayAfter_eq_dayAfter today hp]
      exact h2
    unfold p001Stats
    simp [hne, hv, hf]

/-- Instance of `c6_future_day_policy`: part_001 returns an empty mapping
    for tomorrow even though counter data for that day sits in the
    cache. -/
theorem c6_future_day_policy_witness :
    p001Stats "2024-01-15" (some "2024-01-16")
        ⟨[("2024-01-16", [("char1", ⟨9, 1, 1, 4, 4⟩)])], false⟩ (fun _ => .absent)
      = (.ok [], ⟨[("2024-01-16", [("char1", ⟨9, 1, 1, 4, 4⟩)])], false⟩) :=
  c6_future_day_policy.2.2 "2024-01-15" "2024-01-16"
    ⟨[("2024-01-16", [("char1", ⟨9, 1, 1, 4, 4⟩)])], false⟩ (fun _ => .absent)
    (by decide) (by decide)

/- ----------------------------------------------------------------------
   Tracking validation.
   ---------------------------------------------------------------------- -/

/-- A message increment supplied with no `isUser` flag at all. -/
def c7Req : TrackReq := ⟨"char1", .undef, .num 1, .undef, .undef⟩

/-- Claim C7 as stated is false for server.mjs: a request with a message
    increment and no boolean `isUser` flag is accepted with a success
    response and credited to the AI counter pair (absent `isUser` is
    falsy). -/
theorem c7_missing_isUser_accepted_cex :
    (serverTrack "2024-01-15" (fun _ => .absent) ⟨[], false⟩ c7Req).1 = .ok ∧
    (alistGet ((alistGet (serverTrack "2024-01-15" (fun _ => .absent)
          ⟨[], false⟩ c7Req).2.cache "2024-01-15").getD []) "char1").getD zeroCounters
      = ⟨0, 0, 1, 0, 0⟩ := by
  constructor <;> rfl

/-- Claim C7 (amended): only part_001 validates the attribution flag — it
    rejects any request whose message increment is non-null while `isUser`
    is not a boolean, leaving all state unchanged; server.mjs and part_000
    perform no such validation and accept the request, and in both a
    positive numeric message increment with a non-truthy `isUser` is
    credited to the AI message counter. -/
theorem c7_isUser_validation :
    (∀ (today : String) (disk : Disk) (st : ServerState) (r : TrackReq),
        r.messageIncrement.isNullish = false → r.isUser.isBoolVal = false →
        p001Track today disk st r = (.badRequest, st)) ∧
    (∀ (today : String) (disk : Disk) (st : ServerState) (r : TrackReq),
        r.entityId ≠ "" → r.messageIncrement ≠ .undef →
        (serverTrack today disk st r).1 = .ok) ∧
    (∀ (r : TrackReq) (c : EntityCounters) (m : Int),
        r.messageIncrement = .num m → 0 < m → r.isUser.truthy = false →
        (applyIncServer r c).aiMsgCount = c.aiMsgCount + m) ∧
    (∀ (today : String) (disk : Disk) (st : ServerState) (r : TrackReq),
        r.entityId ≠ "" → (p000Track today disk st r).1 = .ok) ∧
    (∀ (r : TrackReq) (c : EntityCounters) (m : Int),
        r.messageIncrement = .num m → 0 < m → r.isUser.truthy = false →
        (applyIncP000 r c).aiMsgCount = c.aiMsgCount + m) := by
  refine ⟨?_, ?_, ?_, ?_, ?_⟩
  · intro today disk st r hm hb
    unfold p001Track
    split_ifs with h1 h2 h3
    · rfl
    · rfl
    · rfl
    · exact absurd (by simp [hm, hb]) h3
  · intro today disk st r he hmsg
    unfold serverTrack
    split_ifs with h1 h2
    · exact absurd h1 he
    · exact absurd h2.2 hmsg
    · rfl
  · intro r c m hm hpos hu
    rw [applyIncServer_eq_add]
    have hd : (serverDelta r).aiMsgCount = m := by
      unfold serverDelta
      dsimp only
      rw [hu, hm]
      simp [hpos]
    simp [addCounters, hd]
  · intro today disk st r he
    unfold p000Track
    rw [if_neg he]
  · intro r c m hm hpos hu
    unfold applyIncP000
    rw [hm, hu]
    simp [JSVal.truthy, JSVal.gtZero, JSVal.toNum, hpos, Int.ne_of_gt hpos]
    split_ifs <;> simp

/-- Instance of `c7_isUser_validation`: part_001 rejects `c7Req`. -/
theorem c7_isUser_validation_witness :
    p001Track "2024-01-15" (fun _ => .absent) ⟨[], false⟩ c7Req
      = (.badRequest, ⟨[], false⟩) :=
  c7_isUser_validation.1 "2024-01-15" (fun _ => .absent) ⟨[], false⟩ c7Req
    (by decide) (by decide)

/- ----------------------------------------------------------------------
   Serialization round trip.
   ---------------------------------------------------------------------- -/

theorem decodeCounters_encode (e : EntityCounters) :
    decodeCounters (encodeCounters e) = some e := rfl

theorem decodeBucket_encode (b : DayBucket) :
    decodeBucket (encodeBucket b) = some b := by
  induction b with
  | nil => rfl
  | cons p t ih =>
      obtain ⟨k, e⟩ := p
      show decodeBucketFields ((k, encodeCounters e) :: t.map fun q => (q.1, encodeCounters q.2))
          = some ((k, e) :: t)
      unfold decodeBucketFields
      rw [decodeCounters_encode]
      have ht : decodeBucketFields (t.map fun q => (q.1, encodeCounters q.2)) = some t := ih
      rw [ht]

/-- Claim C8: serialization round-trips — decoding the saved image of any
    day bucket restores the bucket, and concretely, flushing a dirty day
    bucket to disk and then freshly loading the same day key (empty cache)
    yields exactly the bucket that was saved. -/
theorem c8_save_load_roundtrip :
    (∀ b : DayBucket, decodeBucket (encodeBucket b) = some b) ∧
    (∀ (today : String) (b : DayBucket) (disk : Disk),
        loadOrGetServer today []
          ((serverFlush false today (fun _ => true) ⟨[(today, b)], true⟩ disk).2)
          = (b, [(today, b)], true)) := by
  constructor
  · exact decodeBucket_encode
  · intro today b disk
    have hdisk : (serverFlush false today (fun _ => true) ⟨[(today, b)], true⟩ disk).2 today
        = .found (encodeBucket b) := by
      unfold serverFlush
      rw [if_neg (by simp)]
      simp [alistGet]
    simp only [loadOrGetServer, alistGet]
    rw [hdisk]
    simp only [decodeBucketD, decodeBucket_encode, Option.getD_some]
    simp [alistSet]

/- ----------------------------------------------------------------------
   Rejected requests do not mutate state.
   ---------------------------------------------------------------------- -/

/-- Claim C9: whenever a Tracking or Query request is answered with a
    validation error, the handler returns before touching any state — the
    cache, the dirty marker and (for the flushing server.mjs /stats
    handler) the disk are all returned unchanged. -/
theorem c9_rejected_request_no_mutation :
    (∀ (today : String) (disk : Disk) (st : ServerState) (r : TrackReq),
        (serverTrack today disk st r).1 = .badRequest →
        (serverTrack today disk st r).2 = st) ∧
    (∀ (today : String) (dq : Option String) (wk : String → Bool)
        (st : ServerState) (disk : Disk),
        (serverStats today dq wk st disk).1 = .badRequest →
        (serverStats today dq wk st disk).2.1 = st ∧
        (serverStats today dq wk st disk).2.2 = disk) ∧
    (∀ (today : String) (disk : Disk) (st : ServerState) (r : TrackReq),
        (p000Track today disk st r).1 = .badRequest →
        (p000Track today disk st r).2 = st) ∧
    (∀ (today : String) (dq : Option String) (st : ServerState) (disk : Disk),
        (p000Stats today dq st disk).1 = .badRequest →
        (p000Stats today dq st disk).2 = st) ∧
    (∀ (today : String) (disk : Disk) (st : ServerState) (r : TrackReq),
        (p001Track today disk st r).1 = .badRequest →
        (p001Track today disk st r).2 = st) := by
  refine ⟨?_, ?_, ?_, ?_, ?_⟩
  · intro today disk st r h
    unfold serverTrack at h ⊢
    split_ifs at h ⊢ <;> first | rfl | simp at h
  · intro today dq wk st disk h
    unfold serverStats at h ⊢
    rcases dq with _ | d
    · simp at h
    · by_cases he : d = ""
      · simp only [he, if_pos rfl] at h
        simp at h
      · simp only [if_neg he] at h ⊢
        split_ifs at h ⊢ <;> first | exact ⟨rfl, rfl⟩ | simp at h
  · intro today disk st r h
    unfold p000Track at h ⊢
    split_ifs at h ⊢ <;> first | rfl | simp at h
  · intro today dq st disk h
    unfold p000Stats at h ⊢
    rcases dq with _ | d
    · dsimp only at h ⊢
      split_ifs at h ⊢ <;> first | rfl | simp at h
    · by_cases he : d = ""
      · simp only [he, if_pos rfl] at h ⊢
        (try dsimp only at h ⊢)
        split_ifs at h ⊢ <;> first | rfl | simp at h
      · simp only [if_neg he] at h ⊢
        (try dsimp only at h ⊢)
        split_ifs at h ⊢ <;> first | rfl | simp at h
  · intro today disk st r h
    unfold p001Track at h ⊢
    split_ifs at h ⊢ <;> first | rfl | simp at h

/-- Instance of `c9_rejected_request_no_mutation`: a /track request with a
    missing entityId is rejected and leaves the state unchanged. -/
theorem c9_rejected_request_no_mutation_witness :
    (serverTrack "2024-01-15" (fun _ => .absent)
        ⟨[("2024-01-15", [("char1", ⟨1, 1, 1, 1, 1⟩)])], true⟩
        ⟨"", .num 5, .undef, .undef, .undef⟩).2
      = ⟨[("2024-01-15", [("char1", ⟨1, 1, 1, 1, 1⟩)])], true⟩ :=
  c9_rejected_request_no_mutation.1 "2024-01-15" (fun _ => .absent)
    ⟨[("2024-01-15", [("char1", ⟨1, 1, 1, 1, 1⟩)])], true⟩
    ⟨"", .num 5, .undef, .undef, .undef⟩ rfl

/- ----------------------------------------------------------------------
   Forced flush and query-only days.
   ---------------------------------------------------------------------- -/

/-- A day with no file, queried once: the query-only scenario of claim
    C10's counterexample and amended theorem. -/
def c10State : ServerState := ⟨[("2024-01-10", [])], false⟩

/-- Claim C10 as stated is false for part_001: a forced flush of the state
    left by a query-only day does not write that day's file at all — the
    flush throws a TypeError at the un-extended `isSameOrBefore` call on
    its first cached entry, leaving the disk unchanged. -/
theorem c10_p001_flush_throws_cex :
    (p001Flush true c10State (fun _ => .absent)).2.1 "2024-01-10" = .absent ∧
    (p001Flush true c10State (fun _ => .absent)).2.2 = true := by
  constructor <;> rfl

/-- Claim C10 (amended): in server.mjs and part_000, when a day key with
    no file on disk is accessed only by a query, the handler caches an
    empty bucket for it without marking anything dirty, and a subsequent
    forced flush — which iterates over every cached day key, not only
    dirty ones — writes that day's file containing an empty JSON object.
    part_001's query caches the empty bucket the same way, but its forced
    flush throws a TypeError before any write (the isSameOrBefore plugin
    is never extended) and leaves the disk unchanged. -/
theorem c10_forced_flush_writes_query_only_day :
    ∀ (today key : String) (disk : Disk),
      disk key = .absent → strictDateValid key = true → dayAfter key today = false →
      (serverStats today (some key) (fun _ => true) ⟨[], false⟩ disk
          = (.ok [], ⟨[(key, [])], false⟩, disk)) ∧
      ((serverFlush true today (fun _ => true) ⟨[(key, [])], false⟩ disk).1.dirty
          = false ∧
       (serverFlush true today (fun _ => true) ⟨[(key, [])], false⟩ disk).2 key
          = .found (.jobj [])) ∧
      (p000Stats today (some key) ⟨[], false⟩ disk = (.ok [], ⟨[(key, [])], false⟩)) ∧
      ((p000Flush true true (fun _ => true) ⟨[(key, [])], false⟩ disk).1.dirty
          = false ∧
       (p000Flush true true (fun _ => true) ⟨[(key, [])], false⟩ disk).2 key
          = .found (.jobj [])) ∧
      (p001Stats today (some key) ⟨[], false⟩ disk = (.ok [], ⟨[(key, [])], false⟩)) ∧
      (p001Flush true ⟨[(key, [])], false⟩ disk
          = (⟨[(key, [])], false⟩, disk, true)) := by
  intro today key disk h1 h2 h3
  have hp : dayjsParse key = dateTriple key := dayjsParse_of_strict key h2
  have hshape : dateShapeOk key = true := dateShapeOk_of_strictDateValid h2
  have hne : key ≠ "" := by
    intro he; rw [he] at hshape; exact absurd hshape (by decide)
  have hv : p001ValidDate key = true := by
    unfold p001ValidDate
    rw [hp]
    unfold dateShapeOk at hshape
    exact hshape
  have hf : p001DayAfter key today = false := by
    rw [p001DayAfter_eq_dayAfter today hp]
    exact h3
  refine ⟨?_, ⟨?_, ?_⟩, ?_, ⟨?_, ?_⟩, ?_, ?_⟩
  · unfold serverStats
    simp only [if_neg hne]
    rw [if_neg (by simp [hshape]), if_neg (by simp [h3])]
    have hfd : (if key = today
        then serverFlush false today (fun _ => true) (⟨[], false⟩ : ServerState) disk
        else ((⟨[], false⟩ : ServerState), disk)) = (⟨[], false⟩, disk) := by
      split_ifs with hk
      · unfold serverFlush
        rw [if_pos (by decide)]
      · rfl
    rw [hfd]
    dsimp only
    simp [loadOrGetServer, alistGet, h1, alistSet]
  · unfold serverFlush
    rw [if_neg (by simp)]
  · unfold serverFlush
    rw [if_neg (by simp)]
    dsimp only
    simp [alistGet, encodeBucket]
  · unfold p000Stats
    simp only [if_neg hne]
    rw [if_neg (by simp [hshape]), if_neg (by simp [h3])]
    simp [loadOrGetP, alistGet, h1, alistSet]
  · unfold p000Flush
    rw [if_neg (by simp)]
    rw [if_neg (by simp)]
  · unfold p000Flush
    rw [if_neg (by simp), if_neg (by simp)]
    dsimp only
    simp [alistGet, encodeBucket]
  · unfold p001Stats
    simp [hne, hv, hf, loadOrGetP, alistGet, h1, alistSet]
  · unfold p001Flush
    rw [if_neg (by simp), if_neg (by simp), if_neg (by simp)]

/-- Instance of `c10_forced_flush_writes_query_only_day` at yesterday's
    key relative to a concrete today: server.mjs's forced flush writes the
    empty object. -/
theorem c10_forced_flush_witness :
    (serverFlush true "2024-01-15" (fun _ => true) ⟨[("2024-01-10", [])], false⟩
        (fun _ => .absent)).2 "2024-01-10" = .found (.jobj []) :=
  ((c10_forced_flush_writes_query_only_day "2024-01-15" "2024-01-10"
      (fun _ => .absent) rfl (by decide) (by decide)).2.1).2
